import Mathlib

/-!
Shallow embedding of `textify.py` (class `TextOverlay`), an OpenCV-based
text-overlay renderer.  Coordinates and pixel dimensions are modelled as
integers (`ℤ`); colors as integer triples in (B, G, R) order.  The calls
the renderer makes into the external 2D primitive library (cv2) are
recorded as a trace of `Cmd` values; pixel-level effects of those
primitives are modelled separately (`mustWriteB` / `mayWriteB`) from the
collaborator contract stated in the specification.  Python `//` is floor
division and is embedded as `Int.fdiv`; Python `int()` truncates toward
zero, which on exact half-integers is embedded as Lean's truncating
integer division by 2.
-/

/-- Color triple in (B, G, R) channel order, as used throughout the source. -/
abbrev Color := ℤ × ℤ × ℤ

/-- Shape of the image buffer (`self.image.shape` = (height, width, channels)). -/
structure Image where
  height : ℤ
  width : ℤ
  channels : ℤ
  deriving DecidableEq, Repr

/-- Bounding box in the source's `[x, y, width, height]` format. -/
structure Bbox where
  x : ℤ
  y : ℤ
  w : ℤ
  h : ℤ
  deriving DecidableEq, Repr

/-- State of a `TextOverlay` object: the image binding plus the nine style
attributes set by `__init__`. -/
structure TextOverlay where
  image : Image
  font : ℕ
  font_scale : ℚ
  font_color : Color
  thickness : ℤ
  line_type : ℕ
  margin : ℤ
  padding : ℤ
  bg_padding : ℤ
  corner_radius : ℤ
  background_color : Color
  deriving DecidableEq, Repr

/-- The constructor `TextOverlay.__init__`: binds the image and installs the
default style constants (cv2.FONT_HERSHEY_SIMPLEX = 0, cv2.LINE_AA = 16). -/
def initTextOverlay (img : Image) : TextOverlay :=
  { image := img
    font := 0
    font_scale := 1
    font_color := (0, 0, 0)
    thickness := 2
    line_type := 16
    margin := 20
    padding := 20
    bg_padding := 10
    corner_radius := 10
    background_color := (255, 255, 255) }

/-- The method `set_text_properties`.  Python keyword arguments with defaults
are embedded as `Option`s: `none` means the caller omitted the argument, in
which case the Python default value is used. -/
def set_text_properties (o : TextOverlay) (font_scale : Option ℚ)
    (font_color : Option Color) (thickness : Option ℤ)
    (background_color : Option Color) : TextOverlay :=
  { o with
    font_scale := font_scale.getD 1
    font_color := font_color.getD (0, 0, 0)
    thickness := thickness.getD 2
    background_color := background_color.getD (255, 255, 255) }

/-- One call into the external 2D primitive library, recorded verbatim with
the arguments the source passes. -/
inductive Cmd where
  | fillPoly (vertices : List (ℤ × ℤ)) (color : Color)
  | ellipse (center : ℤ × ℤ) (axes : ℤ × ℤ) (angle angle0 angle1 : ℤ)
      (color : Color) (thickness : ℤ)
  | line (p1 p2 : ℤ × ℤ) (color : Color) (thickness : ℤ)
  | text (s : String) (org : ℤ × ℤ) (font : ℕ) (fontScale : ℚ) (color : Color)
      (thickness : ℤ) (lineType : ℕ)
  deriving DecidableEq, Repr

/-- The method `draw_rounded_rectangle`: the trace of primitive calls it
issues, transcribed line by line from the source (an unconditional
`cv2.fillPoly` on the eight corner-cut vertices, then the four corner arcs
with the given thickness). -/
def draw_rounded_rectangle (start_point end_point : ℤ × ℤ) (radius : ℤ)
    (color : Color) (thickness : ℤ) : List Cmd :=
  [Cmd.fillPoly
    [(start_point.1 + radius, start_point.2),
     (end_point.1 - radius, start_point.2),
     (end_point.1, start_point.2 + radius),
     (end_point.1, end_point.2 - radius),
     (end_point.1 - radius, end_point.2),
     (start_point.1 + radius, end_point.2),
     (start_point.1, end_point.2 - radius),
     (start_point.1, start_point.2 + radius)] color,
   Cmd.ellipse (start_point.1 + radius, start_point.2 + radius) (radius, radius)
     180 0 90 color thickness,
   Cmd.ellipse (end_point.1 - radius, start_point.2 + radius) (radius, radius)
     270 0 90 color thickness,
   Cmd.ellipse (end_point.1 - radius, end_point.2 - radius) (radius, radius)
     0 0 90 color thickness,
   Cmd.ellipse (start_point.1 + radius, end_point.2 - radius) (radius, radius)
     90 0 90 color thickness]

/-- The method `draw_bbox`: first increments the thickness (`thickness += 1`),
then draws four straight edges inset by `corner_radius` and four corner arcs,
all with the incremented thickness. -/
def draw_bbox (o : TextOverlay) (bbox : Bbox) (color : Color)
    (thickness : ℤ) : List Cmd :=
  let t := thickness + 1
  let r := o.corner_radius
  [Cmd.line (bbox.x + r, bbox.y) (bbox.x + bbox.w - r, bbox.y) color t,
   Cmd.line (bbox.x + bbox.w, bbox.y + r) (bbox.x + bbox.w, bbox.y + bbox.h - r) color t,
   Cmd.line (bbox.x + bbox.w - r, bbox.y + bbox.h) (bbox.x + r, bbox.y + bbox.h) color t,
   Cmd.line (bbox.x, bbox.y + bbox.h - r) (bbox.x, bbox.y + r) color t,
   Cmd.ellipse (bbox.x + r, bbox.y + r) (r, r) 180 0 90 color t,
   Cmd.ellipse (bbox.x + bbox.w - r, bbox.y + r) (r, r) 270 0 90 color t,
   Cmd.ellipse (bbox.x + bbox.w - r, bbox.y + bbox.h - r) (r, r) 0 0 90 color t,
   Cmd.ellipse (bbox.x + r, bbox.y + bbox.h - r) (r, r) 90 0 90 color t]

/-- Stroke width a recorded primitive call was given, when it takes one. -/
def cmdThickness : Cmd → Option ℤ
  | Cmd.fillPoly _ _ => none
  | Cmd.ellipse _ _ _ _ _ _ t => some t
  | Cmd.line _ _ _ t => some t
  | Cmd.text _ _ _ _ _ t _ => some t

/-- Whether a recorded call is the filled-polygon primitive. -/
def isFillPolyCmd : Cmd → Bool
  | Cmd.fillPoly _ _ => true
  | _ => false

/-- Twice the signed area of triangle `a b c`; used for the convex
point-in-polygon test. -/
def cross2 (a b c : ℤ × ℤ) : ℤ :=
  (b.1 - a.1) * (c.2 - a.2) - (b.2 - a.2) * (c.1 - a.1)

/-- Containment in a convex polygon whose vertices are listed clockwise in
screen coordinates (y growing downward): the point is on the inner side of
every directed edge. -/
def inConvexPolyCW (vs : List (ℤ × ℤ)) (q : ℤ × ℤ) : Bool :=
  (vs.zip (vs.rotate 1)).all (fun e => decide (0 ≤ cross2 e.1 e.2 q))

/-- Modelled from the spec's collaborator contract for the external 2D
primitives: a lower bound on the pixels a call certainly overwrites.
`cv2.fillPoly` paints every point of the polygon it is given (for a convex
clockwise vertex list this is the convex containment test); nothing is
assumed about the other primitives. -/
def mustWriteB (c : Cmd) (q : ℤ × ℤ) : Bool :=
  match c with
  | Cmd.fillPoly vs _ => inConvexPolyCW vs q
  | _ => false

/-- Modelled from the spec's collaborator contract for the external 2D
primitives: an upper bound on the pixels a call may touch.  A stroked line
stays within its inflated bounding box; an ellipse (stroked or filled) stays
within the box of its center inflated by its axes plus the stroke width; the
other primitives are unconstrained. -/
def mayWriteB (c : Cmd) (q : ℤ × ℤ) : Bool :=
  match c with
  | Cmd.fillPoly _ _ => true
  | Cmd.line p1 p2 _ t =>
    let m := max t 0 + 1
    decide (min p1.1 p2.1 - m ≤ q.1 ∧ q.1 ≤ max p1.1 p2.1 + m ∧
      min p1.2 p2.2 - m ≤ q.2 ∧ q.2 ≤ max p1.2 p2.2 + m)
  | Cmd.ellipse ctr axes _ _ _ _ t =>
    let e := max axes.1 axes.2 + max t 0 + 1
    decide (ctr.1 - e ≤ q.1 ∧ q.1 ≤ ctr.1 + e ∧ ctr.2 - e ≤ q.2 ∧ q.2 ≤ ctr.2 + e)
  | Cmd.text _ _ _ _ _ _ _ => true

/-- True when no call in the trace may touch pixel `q` under the modelled
upper bound. -/
def noWriteAt (cs : List Cmd) (q : ℤ × ℤ) : Bool :=
  cs.all (fun c => !(mayWriteB c q))

/-- Python's `str.startswith`, on the underlying character lists. -/
def pyStartsWith (s pre : String) : Bool :=
  pre.data.isPrefixOf s.data

/-- Worker for Python's `str.replace`: scans left to right, replacing each
non-overlapping occurrence of `pat` by `rep`.  The fuel argument only bounds
the recursion; one unit of fuel is spent per step and each step consumes at
least one character of a nonempty `pat`, so fuel equal to the input length is
exact for the patterns used here. -/
def replaceAux (pat rep : List Char) : List Char → ℕ → List Char
  | s, 0 => s
  | [], _ + 1 => []
  | c :: cs, fuel + 1 =>
    if pat.isPrefixOf (c :: cs) then
      rep ++ replaceAux pat rep ((c :: cs).drop pat.length) fuel
    else
      c :: replaceAux pat rep cs fuel

/-- Python's `str.replace` (all occurrences, left to right), for nonempty
patterns. -/
def pyReplace (s pat rep : String) : String :=
  ⟨replaceAux pat.data rep.data s.data s.data.length⟩

/-- Python's substring test `pat in s`, on character lists. -/
def hasSubstr (pat : List Char) : List Char → Bool
  | [] => pat.isPrefixOf []
  | c :: cs => pat.isPrefixOf (c :: cs) || hasSubstr pat cs

/-- The 14 anchor names that key the `positions` dictionary in `put_text`. -/
def anchorNames : List String :=
  ["inside_top_left", "inside_top_center", "inside_top_right",
   "inside_bottom_left", "inside_bottom_center", "inside_bottom_right",
   "outside_top_left", "outside_top_center", "outside_top_right",
   "outside_bottom_left", "outside_bottom_center", "outside_bottom_right",
   "outside_left", "outside_right"]

/-- The `positions` dictionary of `put_text`, as a partial lookup: the
top-left coordinate of the text block for each named anchor, given the bbox,
the margin and the measured block dimensions.  Python's `//` (floor
division) is `Int.fdiv`. -/
def positionsTable (b : Bbox) (margin mtw tth : ℤ) : String → Option (ℤ × ℤ)
  | "inside_top_left" => some (b.x + margin, b.y + margin)
  | "inside_top_center" => some (b.x + Int.fdiv (b.w - mtw) 2, b.y + margin)
  | "inside_top_right" => some (b.x + b.w - mtw - margin, b.y + margin)
  | "inside_bottom_left" => some (b.x + margin, b.y + b.h - tth - margin)
  | "inside_bottom_center" =>
    some (b.x + Int.fdiv (b.w - mtw) 2, b.y + b.h - tth - margin)
  | "inside_bottom_right" => some (b.x + b.w - mtw - margin, b.y + b.h - tth - margin)
  | "outside_top_left" => some (b.x + margin, b.y - tth - margin)
  | "outside_top_center" => some (b.x + Int.fdiv (b.w - mtw) 2, b.y - tth - margin)
  | "outside_top_right" => some (b.x + b.w - mtw - margin, b.y - tth - margin)
  | "outside_bottom_left" => some (b.x + margin, b.y + b.h + margin)
  | "outside_bottom_center" => some (b.x + Int.fdiv (b.w - mtw) 2, b.y + b.h + margin)
  | "outside_bottom_right" => some (b.x + b.w - mtw - margin, b.y + b.h + margin)
  | "outside_left" => some (b.x - mtw - margin, b.y + Int.fdiv (b.h - tth) 2)
  | "outside_right" => some (b.x + b.w + margin, b.y + Int.fdiv (b.h - tth) 2)
  | _ => none

/-- The bbox actually used by `put_text`: the caller's, or the whole image
when none is given. -/
def resolvedBbox (o : TextOverlay) (bb : Option Bbox) : Bbox :=
  bb.getD ⟨0, 0, o.image.width, o.image.height⟩

/-- The bbox-outline calls `put_text` makes before laying out the text:
present exactly when a bbox was passed. -/
def bboxCmds (o : TextOverlay) (bb : Option Bbox) (c : Color) : List Cmd :=
  match bb with
  | some b => draw_bbox o b c o.thickness
  | none => []

/-- The out-of-image test of `put_text`'s edge-fit correction, on a candidate
block top-left. -/
def blockOffImage (o : TextOverlay) (mtw tth : ℤ) (xy : ℤ × ℤ) : Bool :=
  decide (xy.1 < 0) || decide (xy.1 + mtw > o.image.width) ||
    decide (xy.2 < 0) || decide (xy.2 + tth > o.image.height)

/-- Position resolution of `put_text`: dictionary lookup with the
`(margin, margin)` default, then at most one `outside` → `inside` name
substitution when the block would leave the image.  Returns the final
position name together with the block top-left. -/
def resolveXY (o : TextOverlay) (b : Bbox) (mtw tth : ℤ) (pos : String) :
    String × ℤ × ℤ :=
  let xy := (positionsTable b o.margin mtw tth pos).getD (o.margin, o.margin)
  if pyStartsWith pos "outside" then
    if blockOffImage o mtw tth xy then
      let p2 := pyReplace pos "outside" "inside"
      (p2, (positionsTable b o.margin mtw tth p2).getD (o.margin, o.margin))
    else (pos, xy)
  else (pos, xy)

/-- The `max_text_width` computation of `put_text`: Python's `max` over the
measured widths (a left fold over the nonempty list), plus twice the
background padding.  The empty case is unreachable: `put_text` fails first. -/
def maxTextWidthOf (o : TextOverlay) (sizes : List (ℤ × ℤ)) : ℤ :=
  match sizes with
  | [] => 0
  | s :: rest => rest.foldl (fun a sz => max a sz.1) s.1 + 2 * o.bg_padding

/-- The `total_text_height` computation of `put_text`. -/
def totalTextHeightOf (o : TextOverlay) (sizes : List (ℤ × ℤ)) : ℤ :=
  (sizes.map Prod.snd).sum + ((sizes.length : ℤ) - 1) * o.padding +
    2 * o.bg_padding

/-- The per-line `cv2.putText` calls of `put_text`.  The source computes
`text_y = y + (bg_padding - 0.5*bg_padding) + i*(h_i + padding)` in floating
point and passes `int(text_y + h_i)`; these values are exact half-integers,
so the truncation toward zero is embedded as truncating division of the
doubled value by 2. -/
def textCmds (o : TextOverlay) (x y : ℤ) (pairs : List (String × (ℤ × ℤ))) :
    List Cmd :=
  pairs.enum.map (fun p =>
    Cmd.text p.2.1
      (x, (2 * y + o.bg_padding + 2 * (p.1 : ℤ) * (p.2.2.2 + o.padding) +
        2 * p.2.2.2) / 2)
      o.font o.font_scale o.font_color o.thickness o.line_type)

/-- Result of a successful `put_text` call: the recorded primitive trace and
the layout quantities the claims talk about. -/
structure PutTextResult where
  trace : List Cmd
  x : ℤ
  y : ℤ
  finalPosition : String
  maxTextWidth : ℤ
  totalTextHeight : ℤ
  deriving DecidableEq, Repr

/-- The method `put_text`.  Text measurement (`cv2.getTextSize`) is an
external deterministic collaborator and is passed in as `measure`.  An empty
`texts` list makes Python's `max` over an empty generator raise `ValueError`,
embedded as the `Except.error` case. -/
def put_text (o : TextOverlay) (measure : String → ℤ × ℤ)
    (texts : List String) (bb : Option Bbox) (pos : String)
    (bbox_color : Color) : Except String PutTextResult :=
  match texts with
  | [] => Except.error "max() arg is an empty sequence"
  | t :: ts =>
    let sizes := (t :: ts).map measure
    let mtw := maxTextWidthOf o sizes
    let tth := totalTextHeightOf o sizes
    let b := resolvedBbox o bb
    let rxy := resolveXY o b mtw tth pos
    Except.ok
      { trace :=
          bboxCmds o bb bbox_color ++
            draw_rounded_rectangle (rxy.2.1 - o.bg_padding, rxy.2.2 - o.bg_padding)
              (rxy.2.1 + mtw, rxy.2.2 + tth) o.corner_radius o.background_color
              (-1) ++
            textCmds o rxy.2.1 rxy.2.2 ((t :: ts).zip sizes)
        x := rxy.2.1
        y := rxy.2.2
        finalPosition := rxy.1
        maxTextWidth := mtw
        totalTextHeight := tth }

/-- Baselines (the y coordinates handed to `cv2.putText`) in drawing order,
read off a result's trace. -/
def baselinesOf (r : PutTextResult) : List ℤ :=
  r.trace.filterMap (fun c =>
    match c with
    | Cmd.text _ org _ _ _ _ _ => some org.2
    | _ => none)

/-- A renderer bound to a 500×500 3-channel image with the constructor
defaults, used for concrete evaluations. -/
def overlay500 : TextOverlay := initTextOverlay ⟨500, 500, 3⟩

/-- A renderer bound to a 200×200 3-channel image with the constructor
defaults, used for concrete evaluations. -/
def overlay200 : TextOverlay := initTextOverlay ⟨200, 200, 3⟩

/-- A concrete deterministic text measurement giving lines "A" and "B"
different heights (10 and 30 pixels). -/
def measureAB : String → ℤ × ℤ := fun s => if s = "A" then (50, 10) else (50, 30)

/-- A concrete deterministic text measurement: every line is 30×22 pixels. -/
def measureHi : String → ℤ × ℤ := fun _ => (30, 22)

/-- Concrete result of rendering "hi" against a bbox flush with the top edge
of a 200×200 image, requesting `outside_top_left`. -/
def edgeFitRes : PutTextResult :=
  ((put_text overlay200 measureHi ["hi"] (some ⟨50, 0, 60, 40⟩) "outside_top_left"
      (0, 255, 0)).toOption).getD ⟨[], 0, 0, "", 0, 0⟩

/-- Concrete result of rendering the two-line text ["A", "B"] with unequal
measured heights on a 500×500 image. -/
def baselineRes : PutTextResult :=
  ((put_text overlay500 measureAB ["A", "B"] none "inside_top_left"
      (0, 255, 0)).toOption).getD ⟨[], 0, 0, "", 0, 0⟩

/-- Concrete result of rendering "hi" with no bbox on a 200×200 image. -/
def dimsRes : PutTextResult :=
  ((put_text overlay200 measureHi ["hi"] none "inside_top_left"
      (0, 255, 0)).toOption).getD ⟨[], 0, 0, "", 0, 0⟩

/-- Concrete result of rendering two lines of equal measured height on a
200×200 image. -/
def eqHeightRes : PutTextResult :=
  ((put_text overlay200 measureHi ["hi", "yo"] none "inside_top_left"
      (0, 255, 0)).toOption).getD ⟨[], 0, 0, "", 0, 0⟩

/-! Helper lemmas about the character-list utilities. -/

lemma string_data_inj {a b : String} (h : a.data = b.data) : a = b := by
  cases a
  cases b
  exact congrArg String.mk h

lemma isPrefixOf_append_self (l t : List Char) : l.isPrefixOf (l ++ t) = true := by
  induction l with
  | nil => simp [List.isPrefixOf]
  | cons c cs ih => simp [List.isPrefixOf, ih]

lemma isPrefixOf_exists {l m : List Char} (h : l.isPrefixOf m = true) :
    ∃ t, m = l ++ t := by
  induction l generalizing m with
  | nil => exact ⟨m, rfl⟩
  | cons c cs ih =>
    cases m with
    | nil => simp [List.isPrefixOf] at h
    | cons d ds =>
      simp only [List.isPrefixOf, Bool.and_eq_true, beq_iff_eq] at h
      obtain ⟨rfl, h2⟩ := h
      obtain ⟨t, rfl⟩ := ih h2
      exact ⟨t, rfl⟩

lemma hasSubstr_append_self (l t : List Char) : hasSubstr l (l ++ t) = true := by
  cases l with
  | nil =>
    cases t with
    | nil => rfl
    | cons c cs => simp [hasSubstr, List.isPrefixOf]
  | cons c cs => simp [hasSubstr, isPrefixOf_append_self]

lemma replaceAux_eq_self {pat rep : List Char} :
    ∀ (fuel : ℕ) (s : List Char),
      hasSubstr rep (replaceAux pat rep s fuel) = false →
        replaceAux pat rep s fuel = s := by
  intro fuel
  induction fuel with
  | zero => intro s _; simp [replaceAux]
  | succ n ih =>
    intro s h
    cases s with
    | nil => rfl
    | cons c cs =>
      by_cases hp : pat.isPrefixOf (c :: cs) = true
      · rw [replaceAux, if_pos hp] at h ⊢
        rw [hasSubstr_append_self] at h
        exact absurd h (by simp)
      · rw [replaceAux, if_neg hp] at h ⊢
        have h2 : hasSubstr rep (replaceAux pat rep cs n) = false := by
          cases hq : hasSubstr rep (replaceAux pat rep cs n) with
          | false => rfl
          | true => simp [hasSubstr, hq] at h
        rw [ih cs h2]

lemma replaceAux_step (pat rep z : List Char) (hne : pat ≠ []) (fuel : ℕ) :
    replaceAux pat rep (pat ++ z) (fuel + 1) = rep ++ replaceAux pat rep z fuel := by
  cases pat with
  | nil => exact absurd rfl hne
  | cons c cs =>
    rw [List.cons_append, replaceAux,
      if_pos (by rw [← List.cons_append]; exact isPrefixOf_append_self _ _)]
    congr 1
    rw [← List.cons_append]
    congr 1
    calc ((c :: cs) ++ z).drop (c :: cs).length
        = z := List.drop_left _ _

lemma pyStartsWith_exists {pos pre : String} (h : pyStartsWith pos pre = true) :
    ∃ rest, pos.data = pre.data ++ rest :=
  isPrefixOf_exists h

lemma pyReplace_outside_data {pos : String} {rest : List Char}
    (hd : pos.data = "outside".data ++ rest) :
    (pyReplace pos "outside" "inside").data =
      "inside".data ++ replaceAux "outside".data "inside".data rest (6 + rest.length) := by
  show replaceAux "outside".data "inside".data pos.data pos.data.length = _
  rw [hd, List.length_append]
  rw [show ("outside".data).length + rest.length = (6 + rest.length) + 1 by
    rw [show ("outside".data).length = 7 from rfl]; omega]
  exact replaceAux_step _ _ _ (by decide) _

/-- Table fact used to trace an anchor name produced by the `outside` →
`inside` substitution back to the original anchor: every anchor name starting
with "inside" is "inside" followed by a tail that contains no further
occurrence of "inside" and that also forms an anchor when prefixed by
"outside". -/
lemma anchor_check : anchorNames.all (fun k =>
    !(("inside".data).isPrefixOf k.data) ||
      (!(hasSubstr "inside".data (k.data.drop 6)) &&
        decide (String.mk ("outside".data ++ k.data.drop 6) ∈ anchorNames))) = true := by
  decide

lemma pyReplace_not_anchor {pos : String} (h : pos ∉ anchorNames)
    (hs : pyStartsWith pos "outside" = true) :
    pyReplace pos "outside" "inside" ∉ anchorNames := by
  obtain ⟨rest, hd⟩ := pyStartsWith_exists hs
  intro hmem
  have hdata := pyReplace_outside_data hd
  have hall := anchor_check
  rw [List.all_eq_true] at hall
  have hk := hall _ hmem
  have hpre : ("inside".data).isPrefixOf (pyReplace pos "outside" "inside").data = true := by
    rw [hdata]; exact isPrefixOf_append_self _ _
  rw [hpre] at hk
  simp only [Bool.not_true, Bool.false_or, Bool.and_eq_true, Bool.not_eq_true',
    decide_eq_true_eq] at hk
  have hRdrop : (pyReplace pos "outside" "inside").data.drop 6 =
      replaceAux "outside".data "inside".data rest (6 + rest.length) := by
    rw [hdata, show (6 : ℕ) = ("inside".data).length from rfl]
    exact List.drop_left _ _
  have hsub : hasSubstr "inside".data
      (replaceAux "outside".data "inside".data rest (6 + rest.length)) = false := by
    rw [← hRdrop]; exact hk.1
  have hrest : replaceAux "outside".data "inside".data rest (6 + rest.length) = rest :=
    replaceAux_eq_self _ _ hsub
  have : pos = String.mk ("outside".data ++ (pyReplace pos "outside" "inside").data.drop 6) := by
    apply string_data_inj
    rw [hd, hRdrop, hrest]
  rw [this] at h
  exact h hk.2

lemma pyReplace_not_startsWith_outside {pos : String}
    (hs : pyStartsWith pos "outside" = true) :
    pyStartsWith (pyReplace pos "outside" "inside") "outside" = false := by
  obtain ⟨rest, hd⟩ := pyStartsWith_exists hs
  have hdata := pyReplace_outside_data hd
  show ("outside".data).isPrefixOf (pyReplace pos "outside" "inside").data = false
  rw [hdata]
  rfl

/-- Lookups outside the 14 anchor names miss the table. -/
lemma positionsTable_none {b : Bbox} {m mtw tth : ℤ} {pos : String}
    (h : pos ∉ anchorNames) : positionsTable b m mtw tth pos = none := by
  unfold positionsTable
  split <;> simp_all [anchorNames]

/-! Helper lemmas about folded maxima, for the block-width computation. -/

lemma self_le_foldl_max : ∀ (l : List ℤ) (a : ℤ), a ≤ l.foldl max a := by
  intro l
  induction l with
  | nil => intro a; exact le_refl a
  | cons b l ih =>
    intro a
    exact le_trans (le_max_left a b) (ih (max a b))

lemma mem_le_foldl_max : ∀ (l : List ℤ) (a x : ℤ), x ∈ l → x ≤ l.foldl max a := by
  intro l
  induction l with
  | nil => intro a x hx; simp at hx
  | cons b l ih =>
    intro a x hx
    rcases List.mem_cons.mp hx with rfl | hx
    · exact le_trans (le_max_right a x) (self_le_foldl_max l (max a x))
    · exact ih (max a b) x hx

lemma foldl_max_attained : ∀ (l : List ℤ) (a : ℤ),
    l.foldl max a = a ∨ l.foldl max a ∈ l := by
  intro l
  induction l with
  | nil => intro a; exact Or.inl rfl
  | cons b l ih =>
    intro a
    rcases ih (max a b) with h | h
    · rcases max_choice a b with hm | hm
      · exact Or.inl (by rw [List.foldl_cons, h, hm])
      · exact Or.inr (by rw [List.foldl_cons, h, hm]; exact List.mem_cons_self b l)
    · exact Or.inr (List.mem_cons_of_mem b h)

/-- Resolution of an unrecognized position name always lands on the
`(margin, margin)` default, before and after the edge-fit substitution. -/
lemma resolveXY_unknown {o : TextOverlay} {b : Bbox} {mtw tth : ℤ} {pos : String}
    (h : pos ∉ anchorNames) :
    (resolveXY o b mtw tth pos).2 = (o.margin, o.margin) := by
  unfold resolveXY
  rw [positionsTable_none h]
  by_cases hs : pyStartsWith pos "outside" = true
  · rw [if_pos hs]
    by_cases hb : blockOffImage o mtw tth ((none : Option (ℤ × ℤ)).getD (o.margin, o.margin)) = true
    · rw [if_pos hb]
      simp only [positionsTable_none (pyReplace_not_anchor h hs), Option.getD_none]
    · rw [if_neg hb]
      rfl
  · rw [if_neg hs]
    rfl

/-- C2: the claim says a thickness other than -1 strokes only an outline and
leaves the interior unmodified, but `draw_rounded_rectangle` calls
`cv2.fillPoly` unconditionally: at thickness 2 the trace still contains the
filled-polygon call, which certainly paints the interior point (50, 50) of
the rectangle (0,0)–(100,100). -/
theorem draw_rounded_rectangle_fills_at_thickness_two :
    ((draw_rounded_rectangle (0, 0) (100, 100) 10 (255, 255, 255) 2).any
        (fun c => isFillPolyCmd c)) = true ∧
      ((draw_rounded_rectangle (0, 0) (100, 100) 10 (255, 255, 255) 2).any
        (fun c => mustWriteB c (50, 50))) = true ∧
      (2 : ℤ) ≠ -1 := by
  decide

/-- C5: every line and arc primitive issued by `draw_bbox` is passed stroke
width exactly `thickness + 1`. -/
theorem draw_bbox_stroke_width_plus_one (o : TextOverlay) (b : Bbox)
    (c : Color) (t : ℤ) :
    ((draw_bbox o b c t).all (fun cmd => cmdThickness cmd == some (t + 1))) = true := by
  simp [draw_bbox, cmdThickness]

/-- C7: an empty texts sequence makes `put_text` fail with Python's error for
a maximum over an empty collection; it does not return a result. -/
theorem put_text_empty_texts_error (o : TextOverlay) (measure : String → ℤ × ℤ)
    (bb : Option Bbox) (pos : String) (c : Color) :
    put_text o measure [] bb pos c = Except.error "max() arg is an empty sequence" :=
  rfl

/-- C9: `set_text_properties` overwrites exactly the four named style fields
with the given arguments; the image binding and all other style fields are
unchanged. -/
theorem set_text_properties_updates_exactly_four (o : TextOverlay) (fs : ℚ)
    (fc : Color) (th : ℤ) (bg : Color) :
    (set_text_properties o (some fs) (some fc) (some th) (some bg)).font_scale = fs ∧
    (set_text_properties o (some fs) (some fc) (some th) (some bg)).font_color = fc ∧
    (set_text_properties o (some fs) (some fc) (some th) (some bg)).thickness = th ∧
    (set_text_properties o (some fs) (some fc) (some th) (some bg)).background_color = bg ∧
    (set_text_properties o (some fs) (some fc) (some th) (some bg)).image = o.image ∧
    (set_text_properties o (some fs) (some fc) (some th) (some bg)).font = o.font ∧
    (set_text_properties o (some fs) (some fc) (some th) (some bg)).line_type = o.line_type ∧
    (set_text_properties o (some fs) (some fc) (some th) (some bg)).margin = o.margin ∧
    (set_text_properties o (some fs) (some fc) (some th) (some bg)).padding = o.padding ∧
    (set_text_properties o (some fs) (some fc) (some th) (some bg)).bg_padding = o.bg_padding ∧
    (set_text_properties o (some fs) (some fc) (some th) (some bg)).corner_radius = o.corner_radius :=
  ⟨rfl, rfl, rfl, rfl, rfl, rfl, rfl, rfl, rfl, rfl, rfl⟩

/-- C10: omitting an argument of `set_text_properties` silently resets the
corresponding field to its constructor default (font scale 1.0, font color
black, thickness 2, background color white) instead of keeping the current
value, so a partial update of only some of the four fields is impossible. -/
theorem set_text_properties_omitted_resets_defaults (o : TextOverlay)
    (a : Option ℚ) (b : Option Color) (c : Option ℤ) (d : Option Color) :
    (set_text_properties o none b c d).font_scale = (initTextOverlay o.image).font_scale ∧
    (set_text_properties o a none c d).font_color = (initTextOverlay o.image).font_color ∧
    (set_text_properties o a b none d).thickness = (initTextOverlay o.image).thickness ∧
    (set_text_properties o a b c none).background_color = (initTextOverlay o.image).background_color ∧
    (initTextOverlay o.image).font_scale = 1 ∧
    (initTextOverlay o.image).font_color = (0, 0, 0) ∧
    (initTextOverlay o.image).thickness = 2 ∧
    (initTextOverlay o.image).background_color = (255, 255, 255) :=
  ⟨rfl, rfl, rfl, rfl, rfl, rfl, rfl, rfl⟩

/-- C3 counterexample: with measured heights 10 for "A" and 30 for "B" and
the default line padding 20, the drawn baselines are 35 and 105, so line
"B"'s baseline is offset from line "A"'s by 70, not by height(A) + padding
= 30 as the claim states. -/
theorem put_text_baseline_step_counterexample :
    ((put_text overlay500 measureAB ["A", "B"] none "inside_top_left"
        (0, 255, 0)).map baselinesOf).toOption = some [35, 105] ∧
      measureAB "A" = (50, 10) ∧ overlay500.padding = 20 ∧
      (105 - 35 : ℤ) ≠ 10 + 20 := by
  decide

/-- When the requested position starts with "outside" and the looked-up block
position fails the image-bounds test, `resolveXY` performs exactly one
substitution and one fresh table lookup. -/
lemma resolveXY_switch {o : TextOverlay} {b : Bbox} {mtw tth : ℤ} {pos : String}
    (hs : pyStartsWith pos "outside" = true)
    (hoff : blockOffImage o mtw tth
      ((positionsTable b o.margin mtw tth pos).getD (o.margin, o.margin)) = true) :
    resolveXY o b mtw tth pos = (pyReplace pos "outside" "inside",
      (positionsTable b o.margin mtw tth (pyReplace pos "outside" "inside")).getD
        (o.margin, o.margin)) := by
  unfold resolveXY
  rw [if_pos hs, if_pos hoff]

/-- Against a bbox flush with the image top edge, resolving
`outside_top_left` falls back to `inside_top_left`. -/
lemma resolveXY_flush_top (o : TextOverlay) (b : Bbox) (mtw tth : ℤ)
    (hb : b.y = 0) (hpos : 0 < tth + o.margin) :
    resolveXY o b mtw tth "outside_top_left" =
      resolveXY o b mtw tth "inside_top_left" := by
  have hoff : blockOffImage o mtw tth
      ((positionsTable b o.margin mtw tth "outside_top_left").getD
        (o.margin, o.margin)) = true := by
    rw [show (positionsTable b o.margin mtw tth "outside_top_left").getD
      (o.margin, o.margin) = (b.x + o.margin, b.y - tth - o.margin) from rfl]
    simp only [blockOffImage, Bool.or_eq_true, decide_eq_true_eq]
    omega
  rw [resolveXY_switch (show pyStartsWith "outside_top_left" "outside" = true from rfl) hoff,
    show pyReplace "outside_top_left" "outside" "inside" = "inside_top_left" from by decide]
  rfl

/-- C1: when the requested position starts with "outside" and the computed
block fails the image-bounds test (x < 0, x + max_text_width > width, y < 0,
or y + total_text_height > height), `put_text` substitutes "inside" for
"outside" in the position name, recomputes the block position by one fresh
table lookup with the same `(margin, margin)` default, and applies the
correction at most once (the substituted name can never trigger the outside
test again); in particular, with a bbox flush against the image top edge the
positions produced for `outside_top_left` and `inside_top_left` coincide. -/
theorem put_text_outside_edge_fit :
    (∀ (o : TextOverlay) (measure : String → ℤ × ℤ) (t : String) (ts : List String)
        (bb : Option Bbox) (pos : String) (c : Color) (r : PutTextResult),
      put_text o measure (t :: ts) bb pos c = Except.ok r →
      pyStartsWith pos "outside" = true →
      blockOffImage o r.maxTextWidth r.totalTextHeight
          ((positionsTable (resolvedBbox o bb) o.margin r.maxTextWidth r.totalTextHeight
            pos).getD (o.margin, o.margin)) = true →
      r.finalPosition = pyReplace pos "outside" "inside" ∧
        (r.x, r.y) = (positionsTable (resolvedBbox o bb) o.margin r.maxTextWidth
          r.totalTextHeight r.finalPosition).getD (o.margin, o.margin) ∧
        pyStartsWith r.finalPosition "outside" = false) ∧
    (∀ (o : TextOverlay) (measure : String → ℤ × ℤ) (t : String) (ts : List String)
        (b : Bbox) (c : Color),
      b.y = 0 →
      0 < totalTextHeightOf o ((t :: ts).map measure) + o.margin →
      (put_text o measure (t :: ts) (some b) "outside_top_left" c).map (fun r => (r.x, r.y)) =
        (put_text o measure (t :: ts) (some b) "inside_top_left" c).map (fun r => (r.x, r.y))) := by
  constructor
  · intro o measure t ts bb pos c r hok hs hoff
    simp only [put_text, Except.ok.injEq] at hok
    subst hok
    dsimp only at hoff ⊢
    rw [resolveXY_switch hs hoff]
    exact ⟨rfl, rfl, pyReplace_not_startsWith_outside hs⟩
  · intro o measure t ts b c hb hpos
    simp only [put_text, Except.map]
    rw [resolveXY_flush_top o (resolvedBbox o (some b)) _ _ hb hpos]

/-- Witness for the edge-fit theorem at a concrete input: image 200×200,
bbox (50, 0, 60, 40) flush with the top edge, one 30×22 line. -/
theorem put_text_outside_edge_fit_witness :
    ((put_text overlay200 measureHi ["hi"] (some ⟨50, 0, 60, 40⟩) "outside_top_left"
        (0, 255, 0)).map (fun r => (r.x, r.y)) =
      (put_text overlay200 measureHi ["hi"] (some ⟨50, 0, 60, 40⟩) "inside_top_left"
        (0, 255, 0)).map (fun r => (r.x, r.y))) ∧
    (edgeFitRes.finalPosition = pyReplace "outside_top_left" "outside" "inside" ∧
      (edgeFitRes.x, edgeFitRes.y) =
        (positionsTable (resolvedBbox overlay200 (some ⟨50, 0, 60, 40⟩))
          overlay200.margin edgeFitRes.maxTextWidth edgeFitRes.totalTextHeight
          edgeFitRes.finalPosition).getD (overlay200.margin, overlay200.margin) ∧
      pyStartsWith edgeFitRes.finalPosition "outside" = false) :=
  ⟨put_text_outside_edge_fit.2 overlay200 measureHi "hi" [] ⟨50, 0, 60, 40⟩ (0, 255, 0)
      rfl (by decide),
   put_text_outside_edge_fit.1 overlay200 measureHi "hi" [] (some ⟨50, 0, 60, 40⟩)
      "outside_top_left" (0, 255, 0) edgeFitRes rfl (by decide) (by decide)⟩

/-- Auxiliary identity: the baselines extracted from the per-line text calls
are the recorded half-integer division values, one per enumerated line. -/
lemma textCmds_filterMap_baselines (o : TextOverlay) (x y : ℤ)
    (measure : String → ℤ × ℤ) :
    ∀ (l : List String) (n : ℕ),
      ((List.enumFrom n (l.zip (l.map measure))).map (fun p =>
          Cmd.text p.2.1 (x, (2 * y + o.bg_padding + 2 * (p.1 : ℤ) * (p.2.2.2 + o.padding) +
            2 * p.2.2.2) / 2) o.font o.font_scale o.font_color o.thickness o.line_type)).filterMap
        (fun c => match c with | Cmd.text _ org _ _ _ _ _ => some org.2 | _ => none) =
      (List.enumFrom n l).map (fun q =>
        (2 * y + o.bg_padding + 2 * (q.1 : ℤ) * ((measure q.2).2 + o.padding) +
          2 * (measure q.2).2) / 2) := by
  intro l
  induction l with
  | nil => intro n; rfl
  | cons a as ih =>
    intro n
    simp only [List.zip] at ih ⊢
    simp only [List.map_cons, List.zipWith_cons_cons, List.enumFrom, List.filterMap_cons]
    rw [ih]

/-- Auxiliary identity: with background padding 10, each recorded truncating
division of the doubled baseline evaluates to y + 5 + i*(h_i + padding) + h_i. -/
lemma enumFrom_baseline_halves (o : TextOverlay) (y : ℤ)
    (measure : String → ℤ × ℤ) (hbgp : o.bg_padding = 10) :
    ∀ (l : List String) (n : ℕ),
      (List.enumFrom n l).map (fun q =>
        (2 * y + o.bg_padding + 2 * (q.1 : ℤ) * ((measure q.2).2 + o.padding) +
          2 * (measure q.2).2) / 2) =
      (List.enumFrom n l).map (fun q =>
        y + 5 + (q.1 : ℤ) * ((measure q.2).2 + o.padding) + (measure q.2).2) := by
  intro l
  induction l with
  | nil => intro n; rfl
  | cons a as ih =>
    intro n
    simp only [List.enumFrom, List.map_cons]
    rw [ih]
    congr 1
    rw [hbgp, mul_assoc]
    omega

/-- C3 (amended): with the renderer's fixed background padding 10, the drawn
baseline of line i (0-based) is y + 5 + i*(height_i + padding) + height_i:
the layout multiplies the current line's height-plus-padding by the line
index instead of accumulating previous lines' heights, so the step from the
previous baseline is not height_{i-1} + padding in general; when all measured
heights are equal — in particular for a two-line text — each step is exactly
that common height plus the padding, matching the claim's ["A", "B"]
instance. -/
theorem put_text_baseline_layout :
    (∀ (o : TextOverlay) (measure : String → ℤ × ℤ) (t : String) (ts : List String)
        (bb : Option Bbox) (pos : String) (c : Color) (r : PutTextResult),
      o.bg_padding = 10 →
      put_text o measure (t :: ts) bb pos c = Except.ok r →
      baselinesOf r = ((t :: ts).enum).map (fun q =>
        r.y + 5 + (q.1 : ℤ) * ((measure q.2).2 + o.padding) + (measure q.2).2)) ∧
    (∀ (o : TextOverlay) (measure : String → ℤ × ℤ) (A B : String) (bb : Option Bbox)
        (pos : String) (c : Color) (r : PutTextResult),
      o.bg_padding = 10 →
      (measure B).2 = (measure A).2 →
      put_text o measure [A, B] bb pos c = Except.ok r →
      baselinesOf r = [r.y + 5 + (measure A).2,
        (r.y + 5 + (measure A).2) + ((measure A).2 + o.padding)]) := by
  have main : ∀ (o : TextOverlay) (measure : String → ℤ × ℤ) (t : String) (ts : List String)
      (bb : Option Bbox) (pos : String) (c : Color) (r : PutTextResult),
      o.bg_padding = 10 →
      put_text o measure (t :: ts) bb pos c = Except.ok r →
      baselinesOf r = ((t :: ts).enum).map (fun q =>
        r.y + 5 + (q.1 : ℤ) * ((measure q.2).2 + o.padding) + (measure q.2).2) := by
    intro o measure t ts bb pos c r hbgp hok
    simp only [put_text, Except.ok.injEq] at hok
    subst hok
    rcases bb with _ | b <;>
      simp only [baselinesOf, bboxCmds, draw_bbox, draw_rounded_rectangle, textCmds,
        List.filterMap_append, List.filterMap_cons, List.filterMap_nil, List.nil_append] <;>
      rw [show (List.enum ((t :: ts).zip ((t :: ts).map measure))) =
          List.enumFrom 0 ((t :: ts).zip ((t :: ts).map measure)) from rfl,
        textCmds_filterMap_baselines, enumFrom_baseline_halves o _ measure hbgp] <;>
      rfl
  refine ⟨main, ?_⟩
  intro o measure A B bb pos c r hbgp heq hok
  rw [main o measure A [B] bb pos c r hbgp hok]
  simp only [List.enum, List.enumFrom, List.map]
  rw [heq]
  simp only [List.cons.injEq, and_true]
  exact ⟨by push_cast; ring, by push_cast; ring⟩

/-- Witness for the baseline-layout theorem: the unequal-height two-line
input (heights 10 and 30, baselines 35 and 105) for the general formula, and
an equal-height two-line input (heights 22, step 42) for the equal-height
instance. -/
theorem put_text_baseline_layout_witness :
    baselinesOf baselineRes = ((["A", "B"]).enum).map (fun q =>
      baselineRes.y + 5 + (q.1 : ℤ) * ((measureAB q.2).2 + overlay500.padding) +
        (measureAB q.2).2) ∧
    baselinesOf eqHeightRes = [eqHeightRes.y + 5 + (measureHi "hi").2,
      (eqHeightRes.y + 5 + (measureHi "hi").2) + ((measureHi "hi").2 + overlay200.padding)] :=
  ⟨put_text_baseline_layout.1 overlay500 measureAB "A" ["B"] none "inside_top_left"
      (0, 255, 0) baselineRes (by decide) rfl,
   put_text_baseline_layout.2 overlay200 measureHi "hi" "yo" none "inside_top_left"
      (0, 255, 0) eqHeightRes (by decide) rfl rfl⟩

/-- C4: for a nonempty texts list, the computed block width is the widest
measured line width plus twice the background padding (an attained upper
bound over all lines), and the block height is the sum of the measured line
heights plus (line count − 1) times the padding plus twice the background
padding. -/
theorem put_text_block_dimensions (o : TextOverlay) (measure : String → ℤ × ℤ)
    (t : String) (ts : List String) (bb : Option Bbox) (pos : String) (c : Color)
    (r : PutTextResult)
    (hok : put_text o measure (t :: ts) bb pos c = Except.ok r) :
    ((t :: ts).all (fun s => decide ((measure s).1 + 2 * o.bg_padding ≤ r.maxTextWidth))) = true ∧
    ((t :: ts).any (fun s => decide (r.maxTextWidth = (measure s).1 + 2 * o.bg_padding))) = true ∧
    r.totalTextHeight = ((t :: ts).map (fun s => (measure s).2)).sum +
      (((t :: ts).length : ℤ) - 1) * o.padding + 2 * o.bg_padding := by
  simp only [put_text, Except.ok.injEq] at hok
  subst hok
  refine ⟨?_, ?_, ?_⟩
  · simp only [List.all_eq_true, decide_eq_true_eq]
    intro s hs
    simp only [maxTextWidthOf, List.map_cons]
    apply add_le_add_right
    rw [← List.foldl_map]
    rcases List.mem_cons.mp hs with rfl | hs
    · exact self_le_foldl_max _ _
    · exact mem_le_foldl_max _ _ _
        (List.mem_map_of_mem Prod.fst (List.mem_map_of_mem measure hs))
  · simp only [List.any_eq_true, decide_eq_true_eq]
    simp only [maxTextWidthOf, List.map_cons]
    rcases foldl_max_attained ((ts.map measure).map Prod.fst) (measure t).1 with h | h
    · refine ⟨t, List.mem_cons_self t ts, ?_⟩
      rw [← List.foldl_map, h]
    · rw [List.mem_map] at h
      obtain ⟨sz, hsz, h2⟩ := h
      rw [List.mem_map] at hsz
      obtain ⟨s, hsmem, rfl⟩ := hsz
      refine ⟨s, List.mem_cons_of_mem t hsmem, ?_⟩
      rw [← List.foldl_map, h2]
  · simp only [totalTextHeightOf, List.map_map, List.length_map]
    congr 1

/-- Witness for the block-dimension theorem at a concrete input: one 30×22
line with background padding 10 gives width 50 and height 42. -/
theorem put_text_block_dimensions_witness :
    (["hi"].all (fun s => decide ((measureHi s).1 + 2 * overlay200.bg_padding ≤ dimsRes.maxTextWidth))) = true ∧
    (["hi"].any (fun s => decide (dimsRes.maxTextWidth = (measureHi s).1 + 2 * overlay200.bg_padding))) = true ∧
    dimsRes.totalTextHeight = (["hi"].map (fun s => (measureHi s).2)).sum +
      ((["hi"].length : ℤ) - 1) * overlay200.padding + 2 * overlay200.bg_padding :=
  put_text_block_dimensions overlay200 measureHi "hi" [] none "inside_top_left"
    (0, 255, 0) dimsRes rfl

/-- C6: for a bbox wider and taller than twice the corner radius, `draw_bbox`
issues no filled-polygon call and no call that may touch an interior pixel
lying farther from every edge than the stroke width and outside every corner
disc: such pixels keep their pre-draw value. -/
theorem draw_bbox_outline_only (o : TextOverlay) (b : Bbox) (c : Color) (t : ℤ)
    (q : ℤ × ℤ)
    (hw : 2 * o.corner_radius < b.w) (hh : 2 * o.corner_radius < b.h)
    (h1 : b.x + (max (t + 1) 0 + 1) < q.1)
    (h2 : q.1 < b.x + b.w - (max (t + 1) 0 + 1))
    (h3 : b.y + (max (t + 1) 0 + 1) < q.2)
    (h4 : q.2 < b.y + b.h - (max (t + 1) 0 + 1))
    (hTL : b.x + 2 * o.corner_radius + (max (t + 1) 0 + 1) < q.1 ∨
      b.y + 2 * o.corner_radius + (max (t + 1) 0 + 1) < q.2)
    (hTR : q.1 < b.x + b.w - 2 * o.corner_radius - (max (t + 1) 0 + 1) ∨
      b.y + 2 * o.corner_radius + (max (t + 1) 0 + 1) < q.2)
    (hBR : q.1 < b.x + b.w - 2 * o.corner_radius - (max (t + 1) 0 + 1) ∨
      q.2 < b.y + b.h - 2 * o.corner_radius - (max (t + 1) 0 + 1))
    (hBL : b.x + 2 * o.corner_radius + (max (t + 1) 0 + 1) < q.1 ∨
      q.2 < b.y + b.h - 2 * o.corner_radius - (max (t + 1) 0 + 1)) :
    noWriteAt (draw_bbox o b c t) q = true ∧
    (draw_bbox o b c t).all (fun cmd => !(isFillPolyCmd cmd)) = true := by
  constructor
  · simp only [noWriteAt, draw_bbox, List.all_cons, List.all_nil, Bool.and_eq_true,
      Bool.not_eq_true', mayWriteB, decide_eq_false_iff_not, not_and, not_le,
      Bool.and_true]
    omega
  · simp [draw_bbox, isFillPolyCmd]

/-- Witness for the outline-only theorem: the center (50, 50) of the bbox
(0, 0, 100, 100) with corner radius 10 and requested thickness 2. -/
theorem draw_bbox_outline_only_witness :
    noWriteAt (draw_bbox overlay200 ⟨0, 0, 100, 100⟩ (0, 255, 0) 2) (50, 50) = true ∧
    (draw_bbox overlay200 ⟨0, 0, 100, 100⟩ (0, 255, 0) 2).all
      (fun cmd => !(isFillPolyCmd cmd)) = true :=
  draw_bbox_outline_only overlay200 ⟨0, 0, 100, 100⟩ (0, 255, 0) 2 (50, 50)
    (by decide) (by decide) (by decide) (by decide) (by decide) (by decide)
    (by decide) (by decide) (by decide) (by decide)

/-- C8: a position string that is not one of the 14 named anchors makes
`put_text` place the text block's top-left at `(margin, margin)`, whether or
not the edge-fit correction path is taken. -/
theorem put_text_unknown_position_margin (o : TextOverlay)
    (measure : String → ℤ × ℤ) (t : String) (ts : List String) (bb : Option Bbox)
    (pos : String) (c : Color) (h : pos ∉ anchorNames) :
    (put_text o measure (t :: ts) bb pos c).map (fun r => (r.x, r.y)) =
      Except.ok (o.margin, o.margin) := by
  simp only [put_text, Except.map, resolveXY_unknown h]

/-- Witness for the unknown-position theorem at the unrecognized name
"north_west" (margin 20). -/
theorem put_text_unknown_position_margin_witness :
    (put_text overlay200 measureHi ["hi"] none "north_west" (0, 255, 0)).map
      (fun r => (r.x, r.y)) = Except.ok (overlay200.margin, overlay200.margin) :=
  put_text_unknown_position_margin overlay200 measureHi "hi" [] none "north_west"
    (0, 255, 0) (by decide)
